import Mathlib

/-!
Shallow embedding of the ruckig core declared in `include/ruckig/steps.hpp`
and `include/ruckig/error.hpp`.  C++ `double` is modelled as `ℚ`; the
`std::optional` members as `Option`; the fixed-size `std::array` members as
functions out of `Fin n`.  Bodies that are only declared in the headers
(`profile.hpp`, the Brake/Step2 solver implementations) are modelled from the
spec and say so in their doc comments.
-/

namespace Ruckig

/-- Modelled from the spec: `profile.hpp` is not among the sources; §3 of the
spec lists the direction tag values UP (leads with positive jerk) and DOWN
(leads with negative jerk). -/
inductive Direction where
  | UP
  | DOWN
deriving DecidableEq

/-- Modelled from the spec: teeth topology tag, single- vs. double-excursion
approach to a plateau (§3 of the spec). -/
inductive Teeth where
  | SINGLE
  | DOUBLE
deriving DecidableEq

/-- Modelled from the spec: limit classification, which bounds are saturated
(§3 of the spec). -/
inductive Limits where
  | NONE
  | ACC0
  | ACC1
  | ACC0_ACC1
  | VEL
  | ACC0_VEL
  | ACC1_VEL
  | ACC0_ACC1_VEL
deriving DecidableEq

/-- Modelled from the spec: `profile.hpp` is not among the sources.  Per §3,
a Profile carries seven phase durations `t`, their cumulative sums `t_sum`
(so `t_sum 6` is the total duration without brake), the topology tags, and an
optional brake duration; `steps.hpp` reads `t_sum[6]`, `t_brake.value_or(0.0)`,
`direction` and (in commented-out guards) `teeth`. -/
structure Profile where
  t : Fin 7 → ℚ
  t_sum : Fin 7 → ℚ
  limits : Limits
  teeth : Teeth
  direction : Direction
  t_brake : Option ℚ

/-- `Block::Interval` from `steps.hpp`: two duration endpoints and the
Profile corresponding to the right (end) time. -/
structure Interval where
  left : ℚ
  right : ℚ
  profile : Profile

/-- `Block` from `steps.hpp`: minimal duration `t_min` with its profile
`p_min`, and at most two blocked intervals `a` and `b`. -/
structure Block where
  t_min : ℚ
  p_min : Profile
  a : Option Interval
  b : Option Interval

/-- `Block::Block(const Profile& p_min)` from `steps.hpp`: caches the profile
and its total duration `t_sum[6] + t_brake.value_or(0.0)`; the optionals `a`
and `b` are default-constructed, hence absent. -/
def Block.ofProfile (p_min : Profile) : Block :=
  { t_min := p_min.t_sum 6 + p_min.t_brake.getD 0
    p_min := p_min
    a := none
    b := none }

/-- `Block::is_blocked` from `steps.hpp`:
`(t < t_min) || (a && a->left < t && t < a->right) || (b && b->left < t && t < b->right)`. -/
def Block.is_blocked (blk : Block) (t : ℚ) : Bool :=
  decide (t < blk.t_min)
  || blk.a.any (fun i => decide (i.left < t) && decide (t < i.right))
  || blk.b.any (fun i => decide (i.left < t) && decide (t < i.right))

/-- The mutable per-call state of `Step1` that its inline helpers touch:
the array of up to 6 valid profiles and its manual counter (`steps.hpp`). -/
structure Step1 where
  valid_profiles : Fin 6 → Profile
  valid_profile_counter : ℕ

/-- `Step1::add_profile` from `steps.hpp`: tags the profile's direction from
the sign of `jMax`, writes it at `valid_profiles[valid_profile_counter]` and
increments the counter.  The C++ write is unchecked; an out-of-bounds index is
modelled as `none` (the indexing error). -/
def Step1.add_profile (s : Step1) (profile : Profile) (jMax : ℚ) : Option Step1 :=
  let tagged : Profile :=
    { profile with direction := if 0 < jMax then Direction.UP else Direction.DOWN }
  if h : s.valid_profile_counter < 6 then
    some { valid_profiles := Function.update s.valid_profiles ⟨s.valid_profile_counter, h⟩ tagged
           valid_profile_counter := s.valid_profile_counter + 1 }
  else
    none

/-- `Step1::add_interval` from `steps.hpp`: overwrites the optional slot with
the interval spanning the two profiles' total durations in ascending order,
storing the profile of the later duration.  The guards on the previous slot
value, on teeth and on direction are commented out in the source, so the
`interval` argument (the slot's previous value) is not read. -/
def Step1.add_interval (s : Step1) (interval : Option Interval) (left right : Fin 6)
    (t_brake : ℚ) : Option Interval :=
  let left_duration := (s.valid_profiles left).t_sum 6 + t_brake
  let right_duraction := (s.valid_profiles right).t_sum 6 + t_brake
  if left_duration < right_duraction then
    some ⟨left_duration, right_duraction, s.valid_profiles right⟩
  else
    some ⟨right_duraction, left_duration, s.valid_profiles left⟩

/-- Iterated `add_profile`, used to express the per-call capacity bound:
one `Step1` call records its successful branches one after the other. -/
def Step1.add_profiles (s : Step1) (ps : List (Profile × ℚ)) : Option Step1 :=
  ps.foldlM (fun st pq => st.add_profile pq.1 pq.2) s

/-- `Brake::eps` from `steps.hpp`: `2e-14`. -/
def Brake.eps : ℚ := 2 / 10 ^ 14

/-- Modelled from the spec: the body of `Brake::get_brake_trajectory` is not
among the sources (`steps.hpp` only declares it).  Per §4.1 it is a pure
function, triggered only when `a0` or `v0` lies outside its bound beyond the
`eps` tolerance: the acceleration-out-of-bound sub-case runs first, then the
velocity-out-of-bound sub-case, and otherwise no braking is needed, both
segment durations (and jerks) are zero.  The two sub-case solvers
(declared-only `acceleration_brake` and `velocity_brake`) are parameters, so
every theorem below holds for any implementation of them. -/
def Brake.get_brake_trajectory
    (acceleration_brake velocity_brake : ℚ → ℚ → ℚ → ℚ → ℚ → ℚ → (ℚ × ℚ) × (ℚ × ℚ))
    (v0 a0 vMax vMin aMax jMax : ℚ) : (ℚ × ℚ) × (ℚ × ℚ) :=
  if aMax + Brake.eps < a0 ∨ a0 < -aMax - Brake.eps then
    acceleration_brake v0 a0 vMax vMin aMax jMax
  else if vMax + Brake.eps < v0 ∨ v0 < vMin - Brake.eps then
    velocity_brake v0 a0 vMax vMin aMax jMax
  else
    ((0, 0), (0, 0))

/-- Modelled from the spec: the bodies of `Step2`'s 16 branch solvers and of
`Step2::get_profile` are not among the sources (`steps.hpp` only declares
them).  Per §4.3 and §8, its success at target duration `tf` is determined by
the `Block` that Step1 computed for the same boundary data: it returns false
exactly when `tf` lies inside a Block interval or below `t_min`, i.e. exactly
when `Block.is_blocked` holds. -/
def Step2.get_profile (tf : ℚ) (blk : Block) : Bool :=
  !(blk.is_blocked tf)

/-- `RuckigError` from `error.hpp`: a `std::runtime_error`; `what` is the
stored message string. -/
structure RuckigError where
  what : String

/-- The constructor `RuckigError(const std::string& message)` from
`error.hpp`: stores `"\n[ruckig] " + message`. -/
def RuckigError.ofMessage (message : String) : RuckigError :=
  ⟨"\n[ruckig] " ++ message⟩

/-- Concrete profile used by witnesses: all durations zero, no brake. -/
def pZero : Profile :=
  ⟨fun _ => 0, fun _ => 0, Limits.NONE, Teeth.SINGLE, Direction.UP, none⟩

/-- Concrete profile used by witnesses: total duration 1, no brake. -/
def pOne : Profile :=
  ⟨fun _ => 1, fun k => k.val + 1, Limits.VEL, Teeth.DOUBLE, Direction.DOWN, none⟩

/-- Unfolding of `Block.is_blocked` into the three blocking sources. -/
lemma Block.is_blocked_iff (blk : Block) (t : ℚ) :
    blk.is_blocked t = true ↔
      t < blk.t_min
        ∨ (∃ i, blk.a = some i ∧ i.left < t ∧ t < i.right)
        ∨ (∃ i, blk.b = some i ∧ i.left < t ∧ t < i.right) := by
  unfold Block.is_blocked
  cases ha : blk.a <;> cases hb : blk.b <;> simp [ha, hb, Option.any, or_assoc]

/-- A blocking test written positionally, for reuse. -/
lemma Block.not_blocked_iff (blk : Block) (t : ℚ) :
    blk.is_blocked t = false ↔
      ¬(t < blk.t_min
        ∨ (∃ i, blk.a = some i ∧ i.left < t ∧ t < i.right)
        ∨ (∃ i, blk.b = some i ∧ i.left < t ∧ t < i.right)) := by
  rw [← Block.is_blocked_iff, Bool.eq_false_iff]

/-- Claim C1: `Block::is_blocked(t)` returns true iff `t < t_min`, or the
interval `a` is present and `a.left < t < a.right`, or the interval `b` is
present and `b.left < t < b.right`; in particular `is_blocked(t_min)` is
false when `t_min` lies strictly inside no present interval, and an
interval's own test never fires at its right endpoint. -/
theorem block_is_blocked_spec (blk : Block) (t : ℚ) :
    (blk.is_blocked t = true ↔
      t < blk.t_min
        ∨ (∃ i, blk.a = some i ∧ i.left < t ∧ t < i.right)
        ∨ (∃ i, blk.b = some i ∧ i.left < t ∧ t < i.right))
    ∧ ((∀ i, blk.a = some i → ¬(i.left < blk.t_min ∧ blk.t_min < i.right)) →
       (∀ i, blk.b = some i → ¬(i.left < blk.t_min ∧ blk.t_min < i.right)) →
        blk.is_blocked blk.t_min = false)
    ∧ (∀ i : Interval, (decide (i.left < i.right) && decide (i.right < i.right)) = false) := by
  refine ⟨Block.is_blocked_iff blk t, fun hA hB => ?_, fun i => ?_⟩
  · rw [Block.not_blocked_iff]
    rintro (hlt | ⟨i, hi, h1, h2⟩ | ⟨i, hi, h1, h2⟩)
    · exact lt_irrefl _ hlt
    · exact hA i hi ⟨h1, h2⟩
    · exact hB i hi ⟨h1, h2⟩
  · simp [lt_irrefl]

/-- Claim C4: `Block::Block(const Profile&)` caches `t_min` as
`t_sum[6] + t_brake.value_or(0)`, stores `p_min`, leaves `a` and `b` absent,
and then `is_blocked(t)` holds exactly for `t < t_min`. -/
theorem block_of_profile_spec (p : Profile) :
    (Block.ofProfile p).t_min = p.t_sum 6 + p.t_brake.getD 0
    ∧ (Block.ofProfile p).p_min = p
    ∧ (Block.ofProfile p).a = none
    ∧ (Block.ofProfile p).b = none
    ∧ ∀ t : ℚ,
        ((Block.ofProfile p).is_blocked t = true ↔ t < p.t_sum 6 + p.t_brake.getD 0) := by
  refine ⟨rfl, rfl, rfl, rfl, fun t => ?_⟩
  rw [Block.is_blocked_iff]
  simp [Block.ofProfile]

/-- Claim C6: gap law (Step2 modelled from the spec): at a target duration
above `t_min` and strictly inside no reported interval, `Step2::get_profile`
succeeds; strictly inside a reported interval, or below `t_min`, it fails. -/
theorem step2_gap_law (blk : Block) (tf : ℚ) :
    (blk.t_min < tf →
      (∀ i, blk.a = some i → ¬(i.left < tf ∧ tf < i.right)) →
      (∀ i, blk.b = some i → ¬(i.left < tf ∧ tf < i.right)) →
      Step2.get_profile tf blk = true)
    ∧ (∀ i, blk.a = some i → i.left < tf → tf < i.right → Step2.get_profile tf blk = false)
    ∧ (∀ i, blk.b = some i → i.left < tf → tf < i.right → Step2.get_profile tf blk = false)
    ∧ (tf < blk.t_min → Step2.get_profile tf blk = false) := by
  refine ⟨fun hmin hA hB => ?_, fun i hi h1 h2 => ?_, fun i hi h1 h2 => ?_, fun hlt => ?_⟩
  · have : blk.is_blocked tf = false := by
      rw [Block.not_blocked_iff]
      rintro (hlt | ⟨i, hi, h1, h2⟩ | ⟨i, hi, h1, h2⟩)
      · exact absurd hmin (not_lt_of_lt hlt)
      · exact hA i hi ⟨h1, h2⟩
      · exact hB i hi ⟨h1, h2⟩
    simp [Step2.get_profile, this]
  · have : blk.is_blocked tf = true :=
      (Block.is_blocked_iff blk tf).mpr (Or.inr (Or.inl ⟨i, hi, h1, h2⟩))
    simp [Step2.get_profile, this]
  · have : blk.is_blocked tf = true :=
      (Block.is_blocked_iff blk tf).mpr (Or.inr (Or.inr ⟨i, hi, h1, h2⟩))
    simp [Step2.get_profile, this]
  · have : blk.is_blocked tf = true :=
      (Block.is_blocked_iff blk tf).mpr (Or.inl hlt)
    simp [Step2.get_profile, this]

/-- Claim C10: the `RuckigError` constructor stores exactly the tag-prefixed
message, and the modelled core operations report infeasibility through their
boolean result: `Step2::get_profile` is false exactly when the duration is
blocked, not by raising an error. -/
theorem ruckig_error_message (m : String) (tf : ℚ) (blk : Block) :
    (RuckigError.ofMessage m).what = "\n[ruckig] " ++ m
    ∧ (Step2.get_profile tf blk = false ↔ blk.is_blocked tf = true) := by
  refine ⟨rfl, ?_⟩
  simp [Step2.get_profile]

/-- Concrete block used for the left-edge analysis: `t_min = 0`, interval
`a = (1, 2)`, no interval `b`. -/
def blkEdge : Block :=
  ⟨0, pZero, some ⟨1, 2, pZero⟩, none⟩

/-- Claim C2, counterexample: the stored interval `(1, 2)` of `blkEdge` has
its left endpoint `1` at or above `t_min = 0`, yet `is_blocked 1` is false —
the comparison `a->left < t` is strict, so the left edge itself is NOT a
blocked duration, against the half-open `[left, right)` reading. -/
theorem block_left_edge_not_blocked_cx :
    blkEdge.t_min ≤ 1 ∧ blkEdge.a = some ⟨1, 2, pZero⟩ ∧ blkEdge.is_blocked 1 = false := by
  refine ⟨by norm_num [blkEdge], rfl, ?_⟩
  rw [Block.not_blocked_iff]
  rintro (hlt | ⟨i, hi, h1, h2⟩ | ⟨i, hi, h1, h2⟩)
  · exact absurd hlt (by norm_num [blkEdge])
  · rw [show blkEdge.a = some ⟨1, 2, pZero⟩ from rfl] at hi
    cases hi
    exact lt_irrefl _ h1
  · exact Option.noConfusion hi

/-- Claim C2 (amended): a stored Interval denotes the OPEN duration range
`(left, right)`: for a Block holding only interval `a`, with `t_min` at or
below `a.left ≤ a.right`, `is_blocked` is true at every `t` with
`left < t < right`, while NEITHER endpoint is blocked — the left edge, like
the right edge, corresponds to an achievable duration. -/
theorem interval_open_range_semantics (blk : Block) (i : Interval)
    (ha : blk.a = some i) (hb : blk.b = none)
    (htm : blk.t_min ≤ i.left) (hlr : i.left ≤ i.right) :
    (∀ t : ℚ, i.left < t → t < i.right → blk.is_blocked t = true)
    ∧ blk.is_blocked i.left = false
    ∧ blk.is_blocked i.right = false := by
  refine ⟨fun t h1 h2 => ?_, ?_, ?_⟩
  · exact (Block.is_blocked_iff blk t).mpr (Or.inr (Or.inl ⟨i, ha, h1, h2⟩))
  · rw [Block.not_blocked_iff]
    rintro (hlt | ⟨j, hj, h1, h2⟩ | ⟨j, hj, h1, h2⟩)
    · exact absurd (lt_of_le_of_lt htm hlt) (lt_irrefl _)
    · rw [ha] at hj; cases hj; exact lt_irrefl _ h1
    · rw [hb] at hj; exact Option.noConfusion hj
  · rw [Block.not_blocked_iff]
    rintro (hlt | ⟨j, hj, h1, h2⟩ | ⟨j, hj, h1, h2⟩)
    · exact absurd (lt_of_le_of_lt (le_trans htm hlr) hlt) (lt_irrefl _)
    · rw [ha] at hj; cases hj; exact lt_irrefl _ h2
    · rw [hb] at hj; exact Option.noConfusion hj

/-- Witness for the amended C2 at the concrete block `blkEdge`. -/
theorem interval_open_range_semantics_witness :
    blkEdge.is_blocked (3 / 2) = true
    ∧ blkEdge.is_blocked 1 = false
    ∧ blkEdge.is_blocked 2 = false := by
  have h := interval_open_range_semantics blkEdge ⟨1, 2, pZero⟩ rfl rfl
    (by norm_num [blkEdge]) (by norm_num)
  exact ⟨h.1 (3 / 2) (by norm_num) (by norm_num), h.2.1, h.2.2⟩

/-- Concrete Step1 state used by witnesses: profiles 0 and 1 recorded, with
total durations 0 and 7 respectively. -/
def s1W : Step1 :=
  ⟨fun k => if k.val = 0 then pZero else pOne, 2⟩

/-- Claim C3: `Step1::add_interval` stores the two indexed profiles' total
durations (`t_sum[6] + t_brake`) as the interval's endpoints in ascending
order, the stored profile's total duration equals the right endpoint, and the
endpoints do not change when the two indices are swapped. -/
theorem add_interval_sorted (s : Step1) (prev : Option Interval) (left right : Fin 6)
    (t_brake : ℚ) (hl : left.val < s.valid_profile_counter)
    (hr : right.val < s.valid_profile_counter) :
    ∃ i, s.add_interval prev left right t_brake = some i
      ∧ i.left = min ((s.valid_profiles left).t_sum 6 + t_brake)
          ((s.valid_profiles right).t_sum 6 + t_brake)
      ∧ i.right = max ((s.valid_profiles left).t_sum 6 + t_brake)
          ((s.valid_profiles right).t_sum 6 + t_brake)
      ∧ i.profile.t_sum 6 + t_brake = i.right
      ∧ ∀ j, s.add_interval prev right left t_brake = some j →
          j.left = i.left ∧ j.right = i.right := by
  unfold Step1.add_interval
  set dl := (s.valid_profiles left).t_sum 6 + t_brake with hdl
  set dr := (s.valid_profiles right).t_sum 6 + t_brake with hdr
  by_cases h : dl < dr
  · rw [if_pos h, if_neg (not_lt_of_lt h)]
    exact ⟨⟨dl, dr, s.valid_profiles right⟩, rfl,
      (min_eq_left h.le).symm, (max_eq_right h.le).symm, rfl,
      fun j hj => by cases hj; exact ⟨rfl, rfl⟩⟩
  · rw [if_neg h]
    have hge : dr ≤ dl := le_of_not_lt h
    refine ⟨⟨dr, dl, s.valid_profiles left⟩, rfl,
      (min_eq_right hge).symm, (max_eq_left hge).symm, rfl, fun j hj => ?_⟩
    by_cases h' : dr < dl
    · rw [if_pos h'] at hj
      cases hj; exact ⟨rfl, rfl⟩
    · rw [if_neg h'] at hj
      cases hj
      have : dl = dr := le_antisymm (le_of_not_lt h') hge
      exact ⟨this, this.symm⟩

/-- Witness for C3 at the concrete state `s1W`, indices 0 and 1. -/
theorem add_interval_sorted_witness :
    ∃ i, s1W.add_interval none 0 1 0 = some i
      ∧ i.left = min ((s1W.valid_profiles 0).t_sum 6 + 0)
          ((s1W.valid_profiles 1).t_sum 6 + 0)
      ∧ i.right = max ((s1W.valid_profiles 0).t_sum 6 + 0)
          ((s1W.valid_profiles 1).t_sum 6 + 0)
      ∧ i.profile.t_sum 6 + 0 = i.right
      ∧ ∀ j, s1W.add_interval none 1 0 0 = some j →
          j.left = i.left ∧ j.right = i.right :=
  add_interval_sorted s1W none 0 1 0 (by norm_num [s1W]) (by norm_num [s1W])

/-- Claim C5: `Step1::add_interval` applies no pairing guard: it always
writes an interval, its result does not depend on the slot's previous value
(no early return on an already-stored interval), and its endpoints depend
only on the two profiles' durations — states whose profiles agree on
`t_sum[6]` but differ arbitrarily in teeth or direction yield the same
endpoints. -/
theorem add_interval_no_guards (s s' : Step1) (prev prev' : Option Interval)
    (left right : Fin 6) (t_brake : ℚ) :
    (s.add_interval prev left right t_brake).isSome = true
    ∧ s.add_interval prev left right t_brake = s.add_interval prev' left right t_brake
    ∧ ((s'.valid_profiles left).t_sum 6 = (s.valid_profiles left).t_sum 6 →
       (s'.valid_profiles right).t_sum 6 = (s.valid_profiles right).t_sum 6 →
        ∀ i i', s.add_interval prev left right t_brake = some i →
          s'.add_interval prev left right t_brake = some i' →
          i.left = i'.left ∧ i.right = i'.right) := by
  refine ⟨?_, rfl, fun h1 h2 i i' hi hi' => ?_⟩
  · unfold Step1.add_interval
    by_cases h : (s.valid_profiles left).t_sum 6 + t_brake
        < (s.valid_profiles right).t_sum 6 + t_brake
    · rw [if_pos h]; rfl
    · rw [if_neg h]; rfl
  · unfold Step1.add_interval at hi hi'
    rw [h1, h2] at hi'
    by_cases h : (s.valid_profiles left).t_sum 6 + t_brake
        < (s.valid_profiles right).t_sum 6 + t_brake
    · rw [if_pos h] at hi hi'
      cases hi; cases hi'; exact ⟨rfl, rfl⟩
    · rw [if_neg h] at hi hi'
      cases hi; cases hi'; exact ⟨rfl, rfl⟩

/-- Claim C7: `Step1::add_profile` tags direction UP exactly when `jMax > 0`
and DOWN otherwise (including `jMax = 0`), writes the tagged profile at index
`valid_profile_counter`, leaves the other slots unchanged, and increments the
counter by exactly one. -/
theorem add_profile_spec (s : Step1) (p : Profile) (jMax : ℚ)
    (h : s.valid_profile_counter < 6) :
    ∃ s', s.add_profile p jMax = some s'
      ∧ s'.valid_profiles ⟨s.valid_profile_counter, h⟩ =
          { p with direction := if 0 < jMax then Direction.UP else Direction.DOWN }
      ∧ ((s'.valid_profiles ⟨s.valid_profile_counter, h⟩).direction = Direction.UP ↔ 0 < jMax)
      ∧ ((s'.valid_profiles ⟨s.valid_profile_counter, h⟩).direction = Direction.DOWN ↔ jMax ≤ 0)
      ∧ s'.valid_profile_counter = s.valid_profile_counter + 1
      ∧ ∀ k : Fin 6, k.val ≠ s.valid_profile_counter → s'.valid_profiles k = s.valid_profiles k := by
  unfold Step1.add_profile
  rw [dif_pos h]
  refine ⟨_, rfl, Function.update_same _ _ _, ?_, ?_, rfl, fun k hk => ?_⟩
  · simp only [Function.update_same]
    by_cases hj : 0 < jMax
    · simp [hj]
    · simp [hj]
  · simp only [Function.update_same]
    by_cases hj : 0 < jMax
    · simp [hj, not_le_of_lt hj]
    · simp [hj, le_of_not_lt hj]
  · exact Function.update_noteq (fun he => hk (congrArg Fin.val he)) _ _

/-- Witness for C7 at the concrete state `s1W` (counter 2) with `jMax = 1`. -/
theorem add_profile_spec_witness :
    ∃ s', s1W.add_profile pZero 1 = some s' ∧ s'.valid_profile_counter = 3 := by
  obtain ⟨s', h1, _, _, _, h5, _⟩ := add_profile_spec s1W pZero 1 (by norm_num [s1W])
  exact ⟨s', h1, by rw [h5]; rfl⟩

/-- Claim C8: modelled from the spec — under the stated preconditions
`get_brake_trajectory` is a total function, and when `v0` and `a0` are
already within their bounds no branch triggers (the `eps` tolerance only
widens the bounds), so both brake segment durations (and jerks) are zero,
for any implementation of the two sub-case solvers. -/
theorem get_brake_trajectory_noop
    (acceleration_brake velocity_brake : ℚ → ℚ → ℚ → ℚ → ℚ → ℚ → (ℚ × ℚ) × (ℚ × ℚ))
    (v0 a0 vMax vMin aMax jMax : ℚ)
    (hvv : vMin ≤ vMax) (haM : 0 < aMax) (hjM : 0 < jMax)
    (hv0 : vMin ≤ v0) (hv1 : v0 ≤ vMax) (ha0 : -aMax ≤ a0) (ha1 : a0 ≤ aMax) :
    Brake.get_brake_trajectory acceleration_brake velocity_brake v0 a0 vMax vMin aMax jMax
      = ((0, 0), (0, 0)) := by
  have heps : (0 : ℚ) < Brake.eps := by norm_num [Brake.eps]
  unfold Brake.get_brake_trajectory
  rw [if_neg, if_neg]
  · rintro (hgt | hlt) <;> linarith
  · rintro (hgt | hlt) <;> linarith

/-- Witness for C8 at concrete in-bound data, with constant sub-case
solvers that would return nonzero durations if they were ever reached. -/
theorem get_brake_trajectory_noop_witness :
    Brake.get_brake_trajectory (fun _ _ _ _ _ _ => ((1, 1), (1, 1)))
      (fun _ _ _ _ _ _ => ((1, 1), (1, 1))) 0 0 1 (-1) 1 1 = ((0, 0), (0, 0)) :=
  get_brake_trajectory_noop _ _ 0 0 1 (-1) 1 1 (by norm_num) (by norm_num)
    (by norm_num) (by norm_num) (by norm_num) (by norm_num) (by norm_num)

/-- Adding a profile with room in the array succeeds and increments the
counter by one. -/
lemma add_profile_some_of_lt (s : Step1) (p : Profile) (jMax : ℚ)
    (h : s.valid_profile_counter < 6) :
    ∃ s', s.add_profile p jMax = some s'
      ∧ s'.valid_profile_counter = s.valid_profile_counter + 1 := by
  unfold Step1.add_profile
  rw [dif_pos h]
  exact ⟨_, rfl, rfl⟩

/-- Iterating `add_profile` while the total record count fits in the
capacity never reaches the indexing error and adds one per record. -/
lemma add_profiles_count (ps : List (Profile × ℚ)) : ∀ s : Step1,
    s.valid_profile_counter + ps.length ≤ 6 →
    ∃ s', s.add_profiles ps = some s'
      ∧ s'.valid_profile_counter = s.valid_profile_counter + ps.length := by
  induction ps with
  | nil =>
      intro s _
      exact ⟨s, rfl, by simp⟩
  | cons pq rest ih =>
      intro s h
      have hc : s.valid_profile_counter < 6 := by
        have := List.length_cons pq rest ▸ h
        omega
      obtain ⟨s₁, hs₁, hcount⟩ := add_profile_some_of_lt s pq.1 pq.2 hc
      have hrest : s₁.valid_profile_counter + rest.length ≤ 6 := by
        rw [hcount]
        have := List.length_cons pq rest ▸ h
        omega
      obtain ⟨s', hs', hcount'⟩ := ih s₁ hrest
      refine ⟨s', ?_, ?_⟩
      · unfold Step1.add_profiles at hs' ⊢
        rw [List.foldlM_cons, hs₁]
        exact hs'
      · rw [hcount', hcount, List.length_cons]
        omega

/-- Claim C9: the unchecked write in `Step1::add_profile` is in bounds
exactly under `valid_profile_counter < 6`; a call that records at most 6
profiles starting from a fresh counter never reaches the indexing error and
ends with `valid_profile_counter ≤ 6`. -/
theorem valid_profiles_capacity (s : Step1) (p : Profile) (jMax : ℚ)
    (ps : List (Profile × ℚ)) :
    ((s.add_profile p jMax).isSome = true ↔ s.valid_profile_counter < 6)
    ∧ (s.valid_profile_counter = 0 → ps.length ≤ 6 →
        ∃ s', s.add_profiles ps = some s'
          ∧ s'.valid_profile_counter = ps.length
          ∧ s'.valid_profile_counter ≤ 6) := by
  constructor
  · constructor
    · intro hsome
      by_contra hge
      unfold Step1.add_profile at hsome
      rw [dif_neg hge] at hsome
      exact Bool.noConfusion hsome
    · intro hlt
      obtain ⟨s', hs', _⟩ := add_profile_some_of_lt s p jMax hlt
      rw [hs']
      rfl
  · intro h0 hlen
    obtain ⟨s', hs', hcount⟩ := add_profiles_count ps s (by omega)
    exact ⟨s', hs', by rw [hcount, h0]; simp, by rw [hcount, h0]; simpa using hlen⟩

end Ruckig
